import Mathlib

set_option maxRecDepth 8000

/-!
Shallow embedding of the ShortsCraft media resolution and assembly pipeline.

The repository source contains two server variants of the search and merge
endpoints; definitions suffixed with V2 embed the second (older) variant,
everything else embeds the first variant and the React client code.

External effects (scraped page content, network responses, randomness, ffmpeg
and download outcomes) are passed in as explicit parameters, so every
definition is executable on concrete inputs.

Conventions used throughout: a JavaScript value that is null, undefined, or
produced by a caught exception is modelled as none; a JavaScript truthiness
test on a string is modelled as a test against the empty string; the random
index Math.floor(Math.random() * len) is modelled as k % len for an
arbitrary natural number k, or as a value of Fin len where uniformity
matters.
-/

namespace ShortsCraft

/-- Helper for the JS substring test: pat occurs at the front of l. -/
def matchFront : List Char → List Char → Bool
  | [], _ => true
  | _ :: _, [] => false
  | p :: ps, c :: cs => (p == c) && matchFront ps cs

/-- Helper for the JS substring test: pat occurs somewhere in the list. -/
def hasSub (pat : List Char) : List Char → Bool
  | [] => matchFront pat []
  | c :: cs => matchFront pat (c :: cs) || hasSub pat cs

/-- JS s.includes(pat). -/
def jsIncludes (s pat : String) : Bool := hasSub pat.data s.data

/-- JS s.endsWith(pat). -/
def jsEndsWith (s pat : String) : Bool := matchFront pat.data.reverse s.data.reverse

/-- The hardcoded watermark denylist of the first server variant
(videoService.ts line 245). -/
def watermarkMarkers : List String :=
  ["shutterstock", "envato", "adobe", "istock", "getty", "pond5",
   "depositphotos", "dreamstime", "123rf", "canva"]

/-- ASCII lowercasing, mirroring url.toLowerCase() on the ASCII URLs the
adapters handle. -/
def lowerStr (s : String) : String := String.mk (s.data.map Char.toLower)

/-- isWatermarked (videoService.ts lines 244-247):
forbidden.some(word => url.toLowerCase().includes(word)). -/
def isWatermarked (url : String) : Bool :=
  watermarkMarkers.any (fun w => jsIncludes (lowerStr url) w)

/-- Shared detail-page scan loop of tryCoverr, tryVidsplay and tryMixkit
(first variant): visit each sampled link in order, read the video element
source, and return it when it is truthy and not watermarked; otherwise keep
scanning. detailSrc models the page evaluation (none covers both a missing
video element and a caught navigation error). -/
def scanDetails (detailSrc : String → Option String) : List String → Option String
  | [] => none
  | l :: ls =>
    match detailSrc l with
    | some s =>
      if (s != "") && (! isWatermarked s) then some s
      else scanDetails detailSrc ls
    | none => scanDetails detailSrc ls

/-- tryCoverr (videoService.ts lines 250-279): sampledLinks is the randomized
sample (up to 3) of the scraped /videos/ links. -/
def tryCoverr (sampledLinks : List String) (detailSrc : String → Option String) :
    Option String :=
  scanDetails detailSrc sampledLinks

/-- tryVidevo (videoService.ts lines 282-310): filter out watermarked, preview
and small sources, fall back to merely non-watermarked ones, then pick a
random element (index modelled as k % length). -/
def tryVidevo (videoSrcs : List String) (k : ℕ) : Option String :=
  if videoSrcs.length > 0 then
    let validSrcs := videoSrcs.filter
      (fun src => (! isWatermarked src) && (! jsIncludes src "preview") && (! jsIncludes src "small"))
    let fallbackSrcs := videoSrcs.filter (fun src => ! isWatermarked src)
    let bestSrcs := if validSrcs.length > 0 then validSrcs else fallbackSrcs
    if bestSrcs.length > 0 then some (bestSrcs.getD (k % bestSrcs.length) "")
    else none
  else none

/-- tryVidsplay (videoService.ts lines 313-342): randomized sample of 2 links,
then the same detail-page scan as tryCoverr. -/
def tryVidsplay (sampledLinks : List String) (detailSrc : String → Option String) :
    Option String :=
  scanDetails detailSrc sampledLinks

/-- Collection filter of the first-variant tryPexels response listener
(videoService.ts lines 350-358). -/
def pexelsPred (url ct : String) : Bool :=
  (jsIncludes ct "video" || jsEndsWith url ".mp4")
    && (! jsIncludes url "preview") && (! jsIncludes url "tiny")
    && (! jsIncludes url "small") && (! isWatermarked url)

/-- tryPexels, first variant (videoService.ts lines 345-401): responses is the
stream of (url, content-type) pairs observed while hovering; a random element
of the collected set is returned. -/
def tryPexels (responses : List (String × String)) (k : ℕ) : Option String :=
  let collected := (responses.filter (fun p => pexelsPred p.1 p.2)).map Prod.fst
  if collected.length > 0 then some (collected.getD (k % collected.length) "")
  else none

/-- Detail scan of tryPixabay (first variant): watermarked links themselves are
skipped before navigation, then the extracted source is returned when truthy
and not watermarked. -/
def scanPixabay (detailSrc : String → Option String) : List String → Option String
  | [] => none
  | l :: ls =>
    if isWatermarked l then scanPixabay detailSrc ls
    else
      match detailSrc l with
      | some s =>
        if (s != "") && (! isWatermarked s) then some s
        else scanPixabay detailSrc ls
      | none => scanPixabay detailSrc ls

/-- tryPixabay (videoService.ts lines 404-445). -/
def tryPixabay (sampledLinks : List String) (detailSrc : String → Option String) :
    Option String :=
  scanPixabay detailSrc sampledLinks

/-- tryMixkit, first variant (videoService.ts lines 448-487): randomized sample
of 3 links, same detail-page scan shape as tryCoverr. -/
def tryMixkit (sampledLinks : List String) (detailSrc : String → Option String) :
    Option String :=
  scanDetails detailSrc sampledLinks

/-- tryMotionElements (videoService.ts lines 490-514): keep non-watermarked
sources and pick a random one among the first min(length, 3). -/
def tryMotionElements (videoSrcs : List String) (k : ℕ) : Option String :=
  if videoSrcs.length > 0 then
    let validSrcs := videoSrcs.filter (fun src => ! isWatermarked src)
    if validSrcs.length > 0 then
      some (validSrcs.getD (k % min validSrcs.length 3) "")
    else none
  else none

/-- trySplitShire (videoService.ts lines 517-544): only the first scraped link
is visited. -/
def trySplitShire (videoLinks : List String) (detailSrc : String → Option String) :
    Option String :=
  match videoLinks with
  | [] => none
  | l :: _ =>
    match detailSrc l with
    | some s => if (s != "") && (! isWatermarked s) then some s else none
    | none => none

/-- tryReddit (videoService.ts lines 547-571): every exit path returns null. -/
def tryReddit (videoLinks : List String) : Option String := none

/-- Collection filter of the second-variant tryPexels response listener
(videoService.ts lines 833-839): no watermark check and no small filter. -/
def pexelsPredV2 (url ct : String) : Bool :=
  (jsIncludes ct "video" || jsEndsWith url ".mp4")
    && (! jsIncludes url "preview") && (! jsIncludes url "tiny")

/-- tryPexels of the second server variant (videoService.ts lines 828-864):
returns the first collected URL, with no denylist filter applied. -/
def tryPexelsV2 (responses : List (String × String)) : Option String :=
  ((responses.filter (fun p => pexelsPredV2 p.1 p.2)).map Prod.fst).head?

/-- Selection of the first-variant variation round (videoService.ts lines
596-604): results.find(url => url !== null) takes the first non-null entry of
the adapter-ordered results array, and the subsequent truthiness test rejects
an empty string (in which case the whole round yields nothing). -/
def roundSelectV1 (res : List (Option String)) : Option String :=
  match res.findSome? id with
  | some u => if u = "" then none else some u
  | none => none

/-- One first-variant round together with the number of adapters whose results
are obtained before selection: Promise.all materializes every entry of the
results array. -/
def parRoundV1 (res : List (Option String)) : Option String × ℕ :=
  (roundSelectV1 res, res.length)

/-- One second-variant round (videoService.ts lines 998-1001): adapters are
invoked sequentially in fixed order and invocation stops at the first truthy
result. Returns the selection and the number of adapters invoked. -/
def seqRoundV2 : List (Option String) → Option String × ℕ
  | [] => (none, 0)
  | r :: rs =>
    match r with
    | some u =>
      if u = "" then
        let p := seqRoundV2 rs
        (p.1, p.2 + 1)
      else (some u, 1)
    | none =>
      let p := seqRoundV2 rs
      (p.1, p.2 + 1)

/-- Variation escalation of the first variant: try rounds in order, stopping at
the first round with a truthy selection. -/
def escalateV1 (terms : List String) (results : String → List (Option String)) :
    Option String :=
  terms.findSome? (fun t => roundSelectV1 (results t))

/-- Variation escalation of the second variant. -/
def escalateV2 (terms : List String) (results : String → List (Option String)) :
    Option String :=
  terms.findSome? (fun t => (seqRoundV2 (results t)).1)

/-- The shortened token variant of the query: split on spaces, keep the first
2 tokens, join with a space (videoService.ts line 577). -/
def shortVariation (q : String) : String :=
  String.intercalate " " ((q.splitOn " ").take 2)

/-- The ordered query variations of the first variant (videoService.ts lines
574-578). -/
def variations (q : String) : List String :=
  [q, q ++ " cinematic", shortVariation q]

/-- The fixed fallback clip pool of the first variant (videoService.ts lines
608-617). -/
def fallbackPool : List String :=
  ["https://player.vimeo.com/external/434045526.sd.mp4?s=c27dbed29f271206012137c745301a62459ed6e7&profile_id=165&oauth2_token_id=57447761",
   "https://player.vimeo.com/external/403846614.sd.mp4?s=34f97157833290659639537f7175402636a0d494&profile_id=165&oauth2_token_id=57447761",
   "https://player.vimeo.com/external/394740316.sd.mp4?s=434449f0185c4929881f6d862e3647d9d8e95241&profile_id=165&oauth2_token_id=57447761",
   "https://player.vimeo.com/external/449074011.sd.mp4?s=53946603b494277c0018ef9a2d3c144445b28a59&profile_id=165&oauth2_token_id=57447761",
   "https://player.vimeo.com/external/494252666.sd.mp4?s=72771929239738fc033c876010b417b16ba9220a&profile_id=165&oauth2_token_id=57447761",
   "https://player.vimeo.com/external/459389137.sd.mp4?s=96445f6d230114f7768391811176dd921757f94a&profile_id=165&oauth2_token_id=57447761",
   "https://player.vimeo.com/external/418306352.sd.mp4?s=53946603b494277c0018ef9a2d3c144445b28a59&profile_id=165&oauth2_token_id=57447761",
   "https://player.vimeo.com/external/371433846.sd.mp4?s=236da2f3c05d00db97ee90743530f769274943c3&profile_id=165&oauth2_token_id=57447761"]

/-- The /api/search-video handler of the first variant (videoService.ts lines
574-621), abstracted over the adapter results per term: empty terms are
skipped, each remaining variation runs one round, and if every round comes up
empty the clip at the random index r of the fallback pool is returned. -/
def searchVideoV1 (results : String → List (Option String)) (q : String) (r : Fin 8) :
    String :=
  match ((variations q).filter (fun t => t != "")).findSome?
      (fun t => roundSelectV1 (results t)) with
  | some u => u
  | none => fallbackPool.getD r.val ""

/-- The /api/verify-video handler (videoService.ts lines 197-218). world maps
a URL to the final axios HEAD response (status, content-type header) or none
for any thrown error (network failure, timeout, malformed URL); axios itself
rejects, hence the catch yields false, for any status outside 200-299. -/
def verifyVideoImpl (world : String → Option (ℕ × String)) (url : String) : Bool :=
  match world url with
  | none => false
  | some (st, ct) =>
    if 200 ≤ st && st < 300 then
      (jsIncludes ct "video" || jsIncludes url ".mp4" || jsIncludes url ".webm")
        && (st == 200)
    else false

/-- Characters before the first occurrence of a stop character. -/
def takeUntil (stop : List Char) : List Char → List Char
  | [] => []
  | c :: cs => if c ∈ stop then [] else c :: takeUntil stop cs

/-- The URL up to the first hash or question mark. -/
def urlPath (url : String) : String :=
  String.mk (takeUntil ['#', '?'] url.data)

/-- A recognized video file extension at the end of the URL path. -/
def pathHasVideoExt (url : String) : Bool :=
  jsEndsWith (urlPath url) ".mp4" || jsEndsWith (urlPath url) ".webm"

/-- Comparator written from the words of the claim for the classifier: valid
iff the remote resource answers successfully (any 2xx) and either its declared
media type indicates video or its path has a recognized video file extension. -/
def verifyVideoSpec (world : String → Option (ℕ × String)) (url : String) : Bool :=
  match world url with
  | none => false
  | some (st, ct) =>
    (200 ≤ st && st < 300) && (jsIncludes ct "video" || pathHasVideoExt url)

/-- The per-scene retry loop of handleGenerate (App.tsx lines 81-107):
while (!found && attempts < 2), one resolve call per iteration, verification
only on a truthy resolve result. resolve is indexed by the attempt number;
the second component of the result is the number of resolve calls made. -/
def sceneLoop (resolve : ℕ → Option String) (verify : String → Bool) :
    ℕ → ℕ → Option String × ℕ
  | 0, calls => (none, calls)
  | fuel + 1, calls =>
    match resolve calls with
    | some u =>
      if u != "" then
        if verify u then (some u, calls + 1)
        else sceneLoop resolve verify fuel (calls + 1)
      else sceneLoop resolve verify fuel (calls + 1)
    | none => sceneLoop resolve verify fuel (calls + 1)

/-- One scene of handleGenerate: maxAttempts = 2. -/
def handleGenerateScene (resolve : ℕ → Option String) (verify : String → Bool) :
    Option String × ℕ :=
  sceneLoop resolve verify 2 0

/-- The scene loop of handleGenerate over all scenes: scenes are processed in
order and each scene gets its outcome independently of the outcomes of the
others. -/
def processScenes (resolvers : ℕ → ℕ → Option String) (verify : String → Bool)
    (n : ℕ) : List (Option String × ℕ) :=
  (List.range n).map (fun i => handleGenerateScene (resolvers i) verify)

/-- updatedScenes.map(s => s.videoUrl).filter(Boolean) (App.tsx line 184). -/
def finalUrls (scenes : List (Option String)) : List String :=
  scenes.filterMap (fun o =>
    match o with
    | some u => if u != "" then some u else none
    | none => none)

/-- One iteration of the handleExport recheck loop (App.tsx lines 159-182):
verify a truthy stored clip; on a falsy or invalid clip attempt one recovery
resolve, overwriting the clip only with a truthy recovered URL; a failed
recovery leaves the stored clip untouched. Returns the new clip and the list
of URLs passed to verification in this iteration. -/
def recoverScene (verify : String → Bool) (recover : Option String)
    (o : Option String) : Option String × List String :=
  match o with
  | some u =>
    if u != "" then
      if verify u then (some u, [u])
      else
        match recover with
        | some r => if r != "" then (some r, [u]) else (some u, [u])
        | none => (some u, [u])
    else
      match recover with
      | some r => if r != "" then (some r, []) else (some "", [])
      | none => (some "", [])
  | none =>
    match recover with
    | some r => if r != "" then (some r, []) else (none, [])
    | none => (none, [])

/-- The full recheck loop, threading the scene index for the recovery resolve;
returns the updated scenes and the concatenated verification trace. -/
def recoverPassAux (verify : String → Bool) (recover : ℕ → Option String) :
    ℕ → List (Option String) → List (Option String) × List String
  | _, [] => ([], [])
  | i, o :: rest =>
    let p := recoverScene verify (recover i) o
    let q := recoverPassAux verify recover (i + 1) rest
    (p.1 :: q.1, p.2 ++ q.2)

/-- The handleExport recheck loop starting at scene 0. -/
def recoverPass (verify : String → Bool) (recover : ℕ → Option String)
    (scenes : List (Option String)) : List (Option String) × List String :=
  recoverPassAux verify recover 0 scenes

/-- Outcome of handleExport. -/
inductive ExportResult
  | refused
  | declined
  | merged (urls : List String)
  deriving DecidableEq

/-- The export gate of handleExport (App.tsx lines 184-204) applied to the
post-recovery scenes: the second component records whether the confirm prompt
was shown. -/
def exportGate (scenes2 : List (Option String)) (userConfirm : Bool) :
    ExportResult × Bool :=
  let urls := finalUrls scenes2
  if urls.length = 0 then (ExportResult.refused, false)
  else if urls.length < scenes2.length then
    if userConfirm then (ExportResult.merged urls, true)
    else (ExportResult.declined, true)
  else (ExportResult.merged urls, false)

/-- handleExport: recheck and recover every scene, then apply the export
gate. -/
def handleExport (scenes : List (Option String)) (verify : String → Bool)
    (recover : ℕ → Option String) (userConfirm : Bool) : ExportResult × Bool :=
  exportGate (recoverPass verify recover scenes).1 userConfirm

/-- Written from the words of the claim: a scene counts as holding a valid
clip after re-verification and recovery when its stored truthy clip passed
verification or the recovery resolve returned a truthy URL. -/
def sceneClaimValid (verify : String → Bool) (recover : Option String)
    (o : Option String) : Bool :=
  match o with
  | some u =>
    if u != "" then
      if verify u then true
      else
        match recover with
        | some r => r != ""
        | none => false
    else
      match recover with
      | some r => r != ""
      | none => false
  | none =>
    match recover with
    | some r => r != ""
    | none => false

/-- Written from the words of the claim: the number of scenes with a valid
clip after re-verification and recovery. -/
def claimValidCount (scenes : List (Option String)) (verify : String → Bool)
    (recover : ℕ → Option String) : ℕ :=
  ((List.range scenes.length).filter
    (fun i => sceneClaimValid verify (recover i) (scenes.getD i none))).length

/-- External outcomes consumed by the first-variant /api/merge-videos handler
(videoService.ts lines 631-728): per-scene clip download, narration download,
ffprobe duration, per-scene encode, and the final concatenation. -/
structure MergeEnvV1 where
  dlVideo : ℕ → Bool
  dlAudio : ℕ → Bool
  probe : ℕ → Option ℚ
  encode : ℕ → Bool
  concat : Bool

/-- One scene of the first-variant merge loop, failing at the first step that
fails, and producing the probed narration duration on success. -/
def sceneStep (env : MergeEnvV1) (i : ℕ) : Except String ℚ :=
  if env.dlVideo i then
    if env.dlAudio i then
      match env.probe i with
      | some d => if env.encode i then Except.ok d else Except.error "scene encode failed"
      | none => Except.error "ffprobe failed"
    else Except.error "audio download failed"
  else Except.error "video download failed"

/-- The sequential scene loop of the first-variant merge: any rejected step
escapes to the catch and fails the whole job. -/
def runScenes (env : MergeEnvV1) : ℕ → Except String (List ℚ)
  | 0 => Except.ok []
  | n + 1 =>
    match runScenes env n with
    | Except.ok ds =>
      match sceneStep env n with
      | Except.ok d => Except.ok (ds ++ [d])
      | Except.error e => Except.error e
    | Except.error e => Except.error e

/-- Duration semantics of the per-scene ffmpeg invocation (videoService.ts
lines 684-704): the clip is looped indefinitely (-stream_loop -1), its own
audio is discarded (-map 1:a:0 takes the narration track), -shortest ends the
output at the narration stream of duration narrDur, and -t tCap caps the
output; the segment therefore lasts min narrDur tCap. -/
def encodedSceneDuration (narrDur tCap : ℚ) : ℚ := min narrDur tCap

/-- The first-variant merge job after input validation: on success exactly one
final artifact is produced (the single mergeToFile output, first component)
whose duration is the sum of the per-scene segment durations, where each
segment is capped by -t at the probed narration duration. -/
def mergeJobV1 (env : MergeEnvV1) (n : ℕ) : Except String (ℕ × ℚ) :=
  match runScenes env n with
  | Except.ok ds =>
    if env.concat then
      Except.ok (1, (ds.map (fun d => encodedSceneDuration d d)).sum)
    else Except.error "merge concat failed"
  | Except.error e => Except.error e

/-- Result of the input validation of the first-variant merge endpoint
(videoService.ts lines 632-638). -/
inductive MergeGate
  | rejectVideos
  | rejectAudios
  | accepted (clips audios : List String)
  deriving DecidableEq

/-- Input validation of the first-variant merge endpoint: missing or non-array
request fields are modelled as none. -/
def mergeInputGate (videoUrls audioUrls : Option (List String)) : MergeGate :=
  match videoUrls with
  | none => MergeGate.rejectVideos
  | some vs =>
    if vs.length = 0 then MergeGate.rejectVideos
    else
      match audioUrls with
      | none => MergeGate.rejectAudios
      | some auds =>
        if auds.length ≠ vs.length then MergeGate.rejectAudios
        else MergeGate.accepted vs auds

/-- The whole first-variant merge endpoint: validation happens before the
workspace directory is created and before any download begins, so a rejected
request consults none of the external outcomes in env. -/
def mergeEndpointV1 (videoUrls audioUrls : Option (List String))
    (env : MergeEnvV1) : Except String (ℕ × ℚ) :=
  match mergeInputGate videoUrls audioUrls with
  | MergeGate.rejectVideos => Except.error "videoUrls array required"
  | MergeGate.rejectAudios => Except.error "Matching audioUrls array required"
  | MergeGate.accepted vs _ => mergeJobV1 env vs.length

/-- Whether the merge endpoint gets past validation and starts work. -/
def mergeEndpointStartsWork (videoUrls audioUrls : Option (List String)) : Bool :=
  match mergeInputGate videoUrls audioUrls with
  | MergeGate.accepted _ _ => true
  | _ => false

/-- External outcomes consumed by the second-variant /api/merge-videos handler
(videoService.ts lines 1021-1140): per-clip download attempts (3 tries each),
per-clip normalization, and the final concatenation. -/
structure MergeEnvV2 where
  dlTry : ℕ → ℕ → Bool
  normalizeOk : ℕ → Bool
  concatOk : Bool

/-- Clip i of the second-variant merge is downloaded when one of its 3 download
attempts succeeds. -/
def v2downloaded (env : MergeEnvV2) (i : ℕ) : Bool :=
  env.dlTry i 0 || env.dlTry i 1 || env.dlTry i 2

/-- The second-variant merge job: clips whose downloads fail are skipped, and
the job fails only when no clip at all is downloaded, a normalization of a
downloaded clip fails, or the concatenation fails. On success the payload is
the single artifact together with the number of clips it includes. -/
def mergeJobV2 (env : MergeEnvV2) (n : ℕ) : Except String (ℕ × ℕ) :=
  let localIdx := (List.range n).filter (fun i => v2downloaded env i)
  if localIdx.length = 0 then
    Except.error "Failed to download any videos for merging."
  else if localIdx.all (fun i => env.normalizeOk i) then
    if env.concatOk then Except.ok (1, localIdx.length)
    else Except.error "merge concat failed"
  else Except.error "normalization failed"

/-- Fixture: second-variant round where only the first adapter succeeds. -/
def resCE : List (Option String) :=
  [some "https://videos.example.com/a.mp4", none, none, none]

/-- Fixture: a denylisted URL served with a video content type. -/
def shutterUrl : String := "https://www.shutterstock.com/video/clip-12345.mp4"

/-- Fixture: a stored clip URL that fails export-time verification. -/
def brokenUrl : String := "https://cdn.example.com/gone.mp4"

/-- Fixture: a URL whose path is an HTML page but whose query string contains
the characters .mp4. -/
def ceUrlA : String := "https://example.com/article.html?clip=.mp4"

/-- Fixture: a direct video URL. -/
def ceUrlB : String := "https://cdn.example.com/movie.mp4"

/-- Fixture world for the classifier: ceUrlA answers 200 as text/html, ceUrlB
answers 204 as video/mp4. -/
def ceWorld : String → Option (ℕ × String) := fun u =>
  if u = ceUrlA then some (200, "text/html")
  else if u = ceUrlB then some (204, "video/mp4")
  else none

/-- Fixture: second-variant merge environment where every download attempt of
clip 0 fails and clip 1 downloads at once. -/
def envV2CE : MergeEnvV2 :=
  ⟨fun i _ => decide (i = 1), fun _ => true, true⟩

/-- Fixture: first-variant merge environment where every step succeeds and
scene i probes to duration i + 2. -/
def envV1W : MergeEnvV1 :=
  ⟨fun _ => true, fun _ => true, fun i => some ((i : ℚ) + 2), fun _ => true, true⟩

/-! ### Helper lemmas -/

theorem exists_of_findSomeEq {α β : Type} (f : α → Option β) :
    ∀ (l : List α) (b : β), l.findSome? f = some b → ∃ a, a ∈ l ∧ f a = some b := by
  intro l
  induction l with
  | nil => intro b h; simp [List.findSome?] at h
  | cons a as ih =>
    intro b h
    cases hfa : f a with
    | some v =>
      simp only [List.findSome?_cons, hfa] at h
      exact ⟨a, List.mem_cons_self a as, by rw [hfa, h]⟩
    | none =>
      simp only [List.findSome?_cons, hfa] at h
      obtain ⟨x, hx, hfx⟩ := ih b h
      exact ⟨x, List.mem_cons_of_mem a hx, hfx⟩

theorem findSomeEq_none_of_all {α β : Type} (f : α → Option β) :
    ∀ l : List α, (∀ a ∈ l, f a = none) → l.findSome? f = none := by
  intro l
  induction l with
  | nil => intro _; simp [List.findSome?]
  | cons a as ih =>
    intro h
    simp only [List.findSome?_cons, h a (List.mem_cons_self a as)]
    exact ih (fun x hx => h x (List.mem_cons_of_mem a hx))

theorem getD_mem {α : Type} (l : List α) (n : ℕ) (d : α) (h : n < l.length) :
    l.getD n d ∈ l := by
  rw [List.getD_eq_getElem?_getD, List.getElem?_eq_getElem h]
  simp only [Option.getD_some]
  exact List.getElem_mem h

theorem mem_filter_not_wm {l : List String} {p : String → Bool} {u : String}
    (hp : ∀ x, p x = true → isWatermarked x = false) (h : u ∈ l.filter p) :
    isWatermarked u = false :=
  hp u (List.mem_filter.mp h).2

theorem roundSelectV1_ne_empty {res : List (Option String)} {u : String}
    (h : roundSelectV1 res = some u) : u ≠ "" := by
  unfold roundSelectV1 at h
  cases hf : res.findSome? id with
  | none => rw [hf] at h; exact absurd h (by simp)
  | some v =>
    rw [hf] at h
    by_cases hv : v = ""
    · simp [hv] at h
    · simp only [if_neg hv, Option.some.injEq] at h
      exact h ▸ hv

/-! ### C9: denylist invariant -/

theorem scanDetails_clean (detailSrc : String → Option String) :
    ∀ (ls : List String) (u : String),
      scanDetails detailSrc ls = some u → isWatermarked u = false := by
  intro ls
  induction ls with
  | nil => intro u h; simp [scanDetails] at h
  | cons l rest ih =>
    intro u h
    rw [scanDetails] at h
    split at h
    · split at h
      · rename_i s heq hc
        cases h
        simp only [Bool.and_eq_true] at hc
        simpa using hc.2
      · exact ih u h
    · exact ih u h

theorem scanPixabay_clean (detailSrc : String → Option String) :
    ∀ (ls : List String) (u : String),
      scanPixabay detailSrc ls = some u → isWatermarked u = false := by
  intro ls
  induction ls with
  | nil => intro u h; simp [scanPixabay] at h
  | cons l rest ih =>
    intro u h
    rw [scanPixabay] at h
    split at h
    · exact ih u h
    · split at h
      · split at h
        · rename_i s heq hc
          cases h
          simp only [Bool.and_eq_true] at hc
          simpa using hc.2
        · exact ih u h
      · exact ih u h

/-- C9 counterexample: the second server variant applies no denylist filter in
its Pexels adapter, so a response whose URL contains the marker shutterstock
is collected and returned as the adapter result, refuting the claim that a
URL containing a denylist marker is never an adapter result. -/
theorem denylist_counterexample :
    tryPexelsV2 [(shutterUrl, "video/mp4")] = some shutterUrl ∧
      isWatermarked shutterUrl = true := by
  constructor
  · rfl
  · decide

/-- C9 (amended): every candidate URL returned by a provider adapter of the
first server variant is free of the watermarked-stock denylist markers, for
every adapter and every input; the second server variant applies no such
filter (see the counterexample). -/
theorem denylist_amended :
    (∀ (links : List String) (detail : String → Option String) (u : String),
        tryCoverr links detail = some u → isWatermarked u = false) ∧
    (∀ (srcs : List String) (k : ℕ) (u : String),
        tryVidevo srcs k = some u → isWatermarked u = false) ∧
    (∀ (links : List String) (detail : String → Option String) (u : String),
        tryVidsplay links detail = some u → isWatermarked u = false) ∧
    (∀ (responses : List (String × String)) (k : ℕ) (u : String),
        tryPexels responses k = some u → isWatermarked u = false) ∧
    (∀ (links : List String) (detail : String → Option String) (u : String),
        tryPixabay links detail = some u → isWatermarked u = false) ∧
    (∀ (links : List String) (detail : String → Option String) (u : String),
        tryMixkit links detail = some u → isWatermarked u = false) ∧
    (∀ (srcs : List String) (k : ℕ) (u : String),
        tryMotionElements srcs k = some u → isWatermarked u = false) ∧
    (∀ (links : List String) (detail : String → Option String) (u : String),
        trySplitShire links detail = some u → isWatermarked u = false) ∧
    (∀ (links : List String) (u : String),
        tryReddit links = some u → isWatermarked u = false) := by
  refine ⟨?_, ?_, ?_, ?_, ?_, ?_, ?_, ?_, ?_⟩
  · intro links detail u h
    exact scanDetails_clean detail links u h
  · intro srcs k u h
    simp only [tryVidevo] at h
    split at h
    · by_cases hv : (srcs.filter (fun src =>
          (! isWatermarked src) && (! jsIncludes src "preview")
            && (! jsIncludes src "small"))).length > 0
      · simp only [if_pos hv] at h
        simp only [Option.some.injEq] at h
        subst h
        refine mem_filter_not_wm ?_ (getD_mem _ _ _ (Nat.mod_lt _ hv))
        intro x hx
        simp only [Bool.and_eq_true] at hx
        simpa using hx.1.1
      · simp only [if_neg hv] at h
        by_cases hf : (srcs.filter (fun src => ! isWatermarked src)).length > 0
        · simp only [if_pos hf] at h
          simp only [Option.some.injEq] at h
          subst h
          refine mem_filter_not_wm ?_ (getD_mem _ _ _ (Nat.mod_lt _ hf))
          intro x hx
          simpa using hx
        · simp only [if_neg hf] at h
          exact absurd h (by simp)
    · exact absurd h (by simp)
  · intro links detail u h
    exact scanDetails_clean detail links u h
  · intro responses k u h
    simp only [tryPexels] at h
    split at h
    · rename_i hc
      simp only [Option.some.injEq] at h
      subst h
      have hmem := getD_mem _ (k % ((responses.filter
        (fun p => pexelsPred p.1 p.2)).map Prod.fst).length) "" (Nat.mod_lt _ hc)
      obtain ⟨p, hp, hpu⟩ := List.mem_map.mp hmem
      have hpred := (List.mem_filter.mp hp).2
      rw [pexelsPred] at hpred
      simp only [Bool.and_eq_true] at hpred
      rw [← hpu]
      simpa using hpred.2
    · exact absurd h (by simp)
  · intro links detail u h
    exact scanPixabay_clean detail links u h
  · intro links detail u h
    exact scanDetails_clean detail links u h
  · intro srcs k u h
    simp only [tryMotionElements] at h
    split at h
    · split at h
      · rename_i hv
        simp only [Option.some.injEq] at h
        subst h
        have hmin : 0 < min (srcs.filter (fun src => ! isWatermarked src)).length 3 :=
          lt_min hv (by norm_num)
        have hidx : k % min (srcs.filter (fun src => ! isWatermarked src)).length 3 <
            (srcs.filter (fun src => ! isWatermarked src)).length :=
          lt_of_lt_of_le (Nat.mod_lt _ hmin) (Nat.min_le_left _ _)
        refine mem_filter_not_wm ?_ (getD_mem _ _ _ hidx)
        intro x hx
        simpa using hx
      · exact absurd h (by simp)
    · exact absurd h (by simp)
  · intro links detail u h
    cases links with
    | nil => simp [trySplitShire] at h
    | cons l rest =>
      rw [trySplitShire] at h
      split at h
      · split at h
        · rename_i s heq hc
          cases h
          simp only [Bool.and_eq_true] at hc
          simpa using hc.2
        · exact absurd h (by simp)
      · exact absurd h (by simp)
  · intro links u h
    simp [tryReddit] at h

/-- C9 witness: a concrete clean candidate accepted by the Coverr adapter is
certified marker-free by the amended theorem. -/
theorem denylist_witness :
    isWatermarked "https://coverr.co/videos/clean-clip.mp4" = false :=
  denylist_amended.1 ["https://coverr.co/videos/detail-page"]
    (fun _ => some "https://coverr.co/videos/clean-clip.mp4") _ rfl

/-! ### C2: fan-out and deterministic selection -/

theorem roundSelectV1_cons_none (rs : List (Option String)) :
    roundSelectV1 (none :: rs) = roundSelectV1 rs := rfl

theorem roundSelectV1_cons_some (u : String) (rs : List (Option String)) :
    roundSelectV1 (some u :: rs) = if u = "" then none else some u := rfl

theorem seqRoundV2_cons_none (rs : List (Option String)) :
    seqRoundV2 (none :: rs) = ((seqRoundV2 rs).1, (seqRoundV2 rs).2 + 1) := rfl

theorem seqRoundV2_cons_some (u : String) (rs : List (Option String)) :
    seqRoundV2 (some u :: rs) =
      if u = "" then ((seqRoundV2 rs).1, (seqRoundV2 rs).2 + 1)
      else (some u, 1) := rfl

theorem roundFirstHit :
    ∀ (res : List (Option String)) (i : ℕ) (u : String),
      res[i]? = some (some u) → (∀ k, k < i → res[k]? = some none) → u ≠ "" →
      roundSelectV1 res = some u ∧ (seqRoundV2 res).1 = some u := by
  intro res
  induction res with
  | nil => intro i u h _ _; simp at h
  | cons r rs ih =>
    intro i u h hk hu
    cases i with
    | zero =>
      simp only [List.getElem?_cons_zero, Option.some.injEq] at h
      subst h
      refine ⟨?_, ?_⟩
      · rw [roundSelectV1_cons_some, if_neg hu]
      · rw [seqRoundV2_cons_some, if_neg hu]
    | succ n =>
      have h0 := hk 0 (Nat.succ_pos n)
      simp only [List.getElem?_cons_zero, Option.some.injEq] at h0
      subst h0
      simp only [List.getElem?_cons_succ] at h
      have hk2 : ∀ k, k < n → rs[k]? = some none := fun k hkn => by
        have := hk (k + 1) (Nat.succ_lt_succ hkn)
        simpa using this
      obtain ⟨h1, h2⟩ := ih n u h hk2 hu
      exact ⟨by rw [roundSelectV1_cons_none]; exact h1,
             by rw [seqRoundV2_cons_none]; exact h2⟩

theorem roundExactlyOne :
    ∀ (res : List (Option String)) (u : String),
      res.filter (fun o => o.isSome) = [some u] → u ≠ "" →
      roundSelectV1 res = some u ∧ (seqRoundV2 res).1 = some u := by
  intro res
  induction res with
  | nil => intro u hf _; simp at hf
  | cons r rs ih =>
    intro u hf hu
    cases r with
    | none =>
      rw [List.filter_cons_of_neg (by simp)] at hf
      obtain ⟨h1, h2⟩ := ih u hf hu
      exact ⟨by rw [roundSelectV1_cons_none]; exact h1,
             by rw [seqRoundV2_cons_none]; exact h2⟩
    | some v =>
      rw [List.filter_cons_of_pos (by simp)] at hf
      simp only [List.cons.injEq, Option.some.injEq] at hf
      obtain ⟨hv, -⟩ := hf
      subst hv
      refine ⟨?_, ?_⟩
      · rw [roundSelectV1_cons_some, if_neg hu]
      · rw [seqRoundV2_cons_some, if_neg hu]

theorem escalateStopV1 (t : String) (ts : List String)
    (results : String → List (Option String)) (u : String)
    (h : roundSelectV1 (results t) = some u) :
    escalateV1 (t :: ts) results = some u := by
  simp [escalateV1, List.findSome?_cons, h]

theorem escalateStopV2 (t : String) (ts : List String)
    (results : String → List (Option String)) (u : String)
    (h : (seqRoundV2 (results t)).1 = some u) :
    escalateV2 (t :: ts) results = some u := by
  simp [escalateV2, List.findSome?_cons, h]

/-- C2 counterexample: in the second server variant the adapters of a
variation round are invoked sequentially with short-circuiting, so with the
first adapter succeeding the selection is made after obtaining only 1 of the
4 adapter results, refuting the claim that all adapters are invoked and all
results awaited before selection. -/
theorem adapter_fanout_counterexample :
    (seqRoundV2 resCE).1 = some "https://videos.example.com/a.mp4" ∧
      (seqRoundV2 resCE).2 = 1 ∧ resCE.length = 4 :=
  ⟨rfl, rfl, rfl⟩

/-- C2 (amended): in the first server variant all adapter results of a round
are materialized before selection, while the second variant invokes adapters
sequentially in the same fixed priority order and stops at the first success;
in both variants the selected result is the first non-absent result in fixed
adapter-priority order — a unique candidate is selected regardless of its
position, of two candidates the earlier-listed adapter wins — and variation
escalation stops as soon as the current round selects a candidate. -/
theorem adapter_selection_amended :
    (∀ res : List (Option String), (parRoundV1 res).2 = res.length) ∧
    (∀ (res : List (Option String)) (i : ℕ) (u : String),
        res[i]? = some (some u) → (∀ k, k < i → res[k]? = some none) → u ≠ "" →
        roundSelectV1 res = some u ∧ (seqRoundV2 res).1 = some u) ∧
    (∀ (res : List (Option String)) (u : String),
        res.filter (fun o => o.isSome) = [some u] → u ≠ "" →
        roundSelectV1 res = some u ∧ (seqRoundV2 res).1 = some u) ∧
    (∀ (t : String) (ts : List String) (results : String → List (Option String))
        (u : String), roundSelectV1 (results t) = some u →
        escalateV1 (t :: ts) results = some u) ∧
    (∀ (t : String) (ts : List String) (results : String → List (Option String))
        (u : String), (seqRoundV2 (results t)).1 = some u →
        escalateV2 (t :: ts) results = some u) :=
  ⟨fun _ => rfl, roundFirstHit, roundExactlyOne, escalateStopV1, escalateStopV2⟩

/-- C2 witness: a unique candidate sitting at position 1 is selected by both
variants. -/
theorem adapter_selection_witness :
    roundSelectV1 [none, some "https://w.example.com/x.mp4", none] =
        some "https://w.example.com/x.mp4" ∧
      (seqRoundV2 [none, some "https://w.example.com/x.mp4", none]).1 =
        some "https://w.example.com/x.mp4" :=
  adapter_selection_amended.2.1 [none, some "https://w.example.com/x.mp4", none] 1 _
    rfl
    (fun k hk => by
      cases k with
      | zero => rfl
      | succ n => exact absurd hk (by omega))
    (by decide)

/-! ### C1: resolver totality and uniform fallback -/

theorem fallback_ne_empty : ∀ r : Fin 8, fallbackPool.getD r.val "" ≠ "" := by decide

/-- C1: for every adapter behavior, query and random index the resolver
returns a non-empty URL; when every adapter returns absent on every variation
the result is the fallback pool entry at the random index, and indexing the
8-element pool is injective and surjective onto the pool, so a uniformly
random index selects each pool member with probability exactly 1/8. -/
theorem resolver_totality_and_uniform_fallback :
    (∀ (results : String → List (Option String)) (q : String) (r : Fin 8),
        searchVideoV1 results q r ≠ "") ∧
    (∀ (q : String) (r : Fin 8),
        searchVideoV1 (fun _ => List.replicate 9 none) q r =
          fallbackPool.getD r.val "") ∧
    (∀ r₁ r₂ : Fin 8,
        fallbackPool.getD r₁.val "" = fallbackPool.getD r₂.val "" → r₁ = r₂) ∧
    (∀ u ∈ fallbackPool, ∃ r : Fin 8, fallbackPool.getD r.val "" = u) := by
  refine ⟨?_, ?_, ?_, ?_⟩
  · intro results q r
    rw [searchVideoV1]
    split
    · rename_i u hu
      obtain ⟨t, -, ht⟩ := exists_of_findSomeEq _ _ _ hu
      exact roundSelectV1_ne_empty ht
    · exact fallback_ne_empty r
  · intro q r
    rw [searchVideoV1]
    split
    · rename_i u hu
      obtain ⟨t, -, ht⟩ := exists_of_findSomeEq _ _ _ hu
      have hrt : roundSelectV1 (List.replicate 9 none) = (none : Option String) := rfl
      rw [hrt] at ht
      cases ht
    · rfl
  · decide
  · decide

/-- C1 witness: with all adapters absent, a concrete query and random index 3
yield the fourth pool clip, which is non-empty, and the pool indexing is
checked at concrete indices. -/
theorem resolver_totality_witness :
    searchVideoV1 (fun _ => List.replicate 9 none) "ocean waves" 3 =
        fallbackPool.getD 3 "" ∧
      searchVideoV1 (fun _ => List.replicate 9 none) "ocean waves" 3 ≠ "" ∧
      (3 : Fin 8) = 3 ∧
      ∃ r : Fin 8, fallbackPool.getD r.val "" = fallbackPool.getD 0 "" :=
  ⟨resolver_totality_and_uniform_fallback.2.1 "ocean waves" 3,
   resolver_totality_and_uniform_fallback.1 _ "ocean waves" 3,
   resolver_totality_and_uniform_fallback.2.2.1 3 3 rfl,
   resolver_totality_and_uniform_fallback.2.2.2 (fallbackPool.getD 0 "") (by decide)⟩

/-! ### C5: content classifier -/

/-- C5 counterexample: (a) a URL whose path is an HTML page but whose query
string contains the characters .mp4 is declared valid by the implementation
on a 200 text/html answer, although the claimed predicate (declared video
media type or recognized path extension) is false there; (b) a direct video
URL answered with the successful status 204 is declared invalid by the
implementation, although the claimed predicate is true there. -/
theorem classifier_counterexample :
    verifyVideoImpl ceWorld ceUrlA = true ∧ verifyVideoSpec ceWorld ceUrlA = false ∧
      verifyVideoImpl ceWorld ceUrlB = false ∧ verifyVideoSpec ceWorld ceUrlB = true := by
  refine ⟨?_, ?_, ?_, ?_⟩ <;> rfl

/-- C5 (amended): the classifier is total — any thrown error and any answer
outside the 2xx range yield false — and returns true iff the resource
answers with status exactly 200 (not any successful status) and either the
declared media type contains video or the full URL contains .mp4 or .webm as
a substring anywhere (not only as a path extension). -/
theorem classifier_amended :
    ∀ (world : String → Option (ℕ × String)) (url : String),
      verifyVideoImpl world url = true ↔
        ∃ ct, world url = some (200, ct) ∧
          (jsIncludes ct "video" || jsIncludes url ".mp4"
            || jsIncludes url ".webm") = true := by
  intro world url
  constructor
  · intro h
    rw [verifyVideoImpl] at h
    split at h
    · cases h
    · rename_i st ct hw
      split at h
      · simp only [Bool.and_eq_true, beq_iff_eq] at h
        obtain ⟨hv, h200⟩ := h
        subst h200
        exact ⟨ct, hw, by simp [hv]⟩
      · cases h
  · intro hex
    obtain ⟨ct, hct, hv⟩ := hex
    rw [verifyVideoImpl]
    simp only [hct]
    simp [hv]

/-- C5 witness: a 200 video/mp4 answer is classified valid via the amended
characterization. -/
theorem classifier_witness :
    verifyVideoImpl (fun _ => some (200, "video/mp4")) "https://x.example.com/v" =
      true :=
  (classifier_amended (fun _ => some (200, "video/mp4")) "https://x.example.com/v").mpr
    ⟨"video/mp4", rfl, by decide⟩

/-! ### C6: bounded per-scene generation retries -/

theorem sceneLoop_calls_le (resolve : ℕ → Option String) (verify : String → Bool) :
    ∀ (fuel calls : ℕ), (sceneLoop resolve verify fuel calls).2 ≤ calls + fuel := by
  intro fuel
  induction fuel with
  | zero => intro calls; simp [sceneLoop]
  | succ n ih =>
    intro calls
    rw [sceneLoop]
    split
    · split
      · split
        · show calls + 1 ≤ calls + (n + 1)
          omega
        · have := ih (calls + 1)
          omega
      · have := ih (calls + 1)
        omega
    · have := ih (calls + 1)
      omega

theorem sceneLoop_some_inv (resolve : ℕ → Option String) (verify : String → Bool) :
    ∀ (fuel calls : ℕ) (u : String),
      (sceneLoop resolve verify fuel calls).1 = some u →
      ∃ k, calls ≤ k ∧ k < calls + fuel ∧ resolve k = some u ∧ u ≠ "" ∧
        verify u = true := by
  intro fuel
  induction fuel with
  | zero => intro calls u h; simp [sceneLoop] at h
  | succ n ih =>
    intro calls u h
    rw [sceneLoop] at h
    split at h
    · rename_i v hr
      split at h
      · rename_i hv
        split at h
        · rename_i hver
          simp only [Option.some.injEq] at h
          subst h
          exact ⟨calls, le_refl calls, by omega, hr, by simpa using hv, hver⟩
        · obtain ⟨k, hk1, hk2, hrest⟩ := ih (calls + 1) u h
          exact ⟨k, by omega, by omega, hrest⟩
      · obtain ⟨k, hk1, hk2, hrest⟩ := ih (calls + 1) u h
        exact ⟨k, by omega, by omega, hrest⟩
    · obtain ⟨k, hk1, hk2, hrest⟩ := ih (calls + 1) u h
      exact ⟨k, by omega, by omega, hrest⟩

/-- C6: per-scene generation makes at most 2 resolve calls; a first resolve
whose clip passes verification ends the scene after exactly 1 resolve call
with that clip; when no attempt yields a verified truthy clip the scene is
left degraded with no clip; and every scene of the project receives its
outcome independently of the other scenes (forward progress). -/
theorem generation_retry_bound :
    (∀ (resolve : ℕ → Option String) (verify : String → Bool),
        (handleGenerateScene resolve verify).2 ≤ 2) ∧
    (∀ (resolve : ℕ → Option String) (verify : String → Bool) (u : String),
        resolve 0 = some u → u ≠ "" → verify u = true →
        handleGenerateScene resolve verify = (some u, 1)) ∧
    (∀ (resolve : ℕ → Option String) (verify : String → Bool),
        (∀ k, k < 2 → ∀ u, resolve k = some u → u ≠ "" → verify u = false) →
        (handleGenerateScene resolve verify).1 = none) ∧
    (∀ (resolvers : ℕ → ℕ → Option String) (verify : String → Bool) (n i : ℕ),
        i < n →
        (processScenes resolvers verify n)[i]? =
          some (handleGenerateScene (resolvers i) verify)) := by
  refine ⟨?_, ?_, ?_, ?_⟩
  · intro resolve verify
    have := sceneLoop_calls_le resolve verify 2 0
    simpa [handleGenerateScene] using this
  · intro resolve verify u h0 hu hv
    simp [handleGenerateScene, sceneLoop, h0, hu, hv]
  · intro resolve verify h
    cases ho : (handleGenerateScene resolve verify).1 with
    | none => rfl
    | some u =>
      obtain ⟨k, -, hk, hr, hu, hver⟩ := sceneLoop_some_inv resolve verify 2 0 u ho
      have := h k (by omega) u hr hu
      rw [this] at hver
      cases hver
  · intro resolvers verify n i hi
    simp [processScenes, List.getElem?_map, List.getElem?_range hi]

/-- C6 witness: a first-attempt verified clip ends the scene in one resolve
call, and a scene whose resolves all fail is left with no clip. -/
theorem generation_retry_witness :
    handleGenerateScene (fun _ => some "https://v.example.com/a.mp4") (fun _ => true) =
        (some "https://v.example.com/a.mp4", 1) ∧
      (handleGenerateScene (fun _ => none) (fun _ => false)).1 = none :=
  ⟨generation_retry_bound.2.1 _ _ _ rfl (by decide) rfl,
   generation_retry_bound.2.2.1 _ _ (fun k hk u hr hu => by simp at hr)⟩

/-! ### C3 and C10: export re-verification, recovery and the export gate -/

theorem recoverPassAux_len (verify : String → Bool) (recover : ℕ → Option String) :
    ∀ (os : List (Option String)) (j : ℕ),
      ((recoverPassAux verify recover j os).1).length = os.length := by
  intro os
  induction os with
  | nil => intro j; rfl
  | cons o rest ih =>
    intro j
    simp only [recoverPassAux, List.length_cons]
    rw [ih (j + 1)]

theorem recoverPassAux_get (verify : String → Bool) (recover : ℕ → Option String) :
    ∀ (os : List (Option String)) (j i : ℕ),
      ((recoverPassAux verify recover j os).1)[i]? =
        (os[i]?).map (fun o => (recoverScene verify (recover (j + i)) o).1) := by
  intro os
  induction os with
  | nil => intro j i; simp [recoverPassAux]
  | cons o rest ih =>
    intro j i
    cases i with
    | zero => simp [recoverPassAux]
    | succ n =>
      simp only [recoverPassAux, List.getElem?_cons_succ]
      have := ih (j + 1) n
      have harith : j + 1 + n = j + (n + 1) := by omega
      rw [harith] at this
      exact this

theorem recoverScene_trace (verify : String → Bool) (rec : Option String)
    (o : Option String) :
    (recoverScene verify rec o).2 =
      (match o with
       | some u => if u != "" then [u] else []
       | none => []) := by
  cases o with
  | none =>
    cases rec with
    | none => rfl
    | some r => by_cases hr : (r != "") = true <;> simp [recoverScene, hr]
  | some u =>
    by_cases hu : (u != "") = true
    · by_cases hv : verify u = true
      · simp [recoverScene, hu, hv]
      · cases rec with
        | none => simp [recoverScene, hu, hv]
        | some r =>
          by_cases hr : (r != "") = true <;> simp [recoverScene, hu, hv, hr]
    · cases rec with
      | none => simp [recoverScene, hu]
      | some r => by_cases hr : (r != "") = true <;> simp [recoverScene, hu, hr]

theorem recoverPassAux_trace (verify : String → Bool) (recover : ℕ → Option String) :
    ∀ (os : List (Option String)) (j : ℕ),
      (recoverPassAux verify recover j os).2 = finalUrls os := by
  intro os
  induction os with
  | nil => intro j; rfl
  | cons o rest ih =>
    intro j
    simp only [recoverPassAux, recoverScene_trace, finalUrls, List.filterMap_cons]
    rw [show (recoverPassAux verify recover (j + 1) rest).2 = finalUrls rest from ih (j + 1)]
    cases o with
    | none => simp [finalUrls]
    | some u =>
      by_cases hu : (u != "") = true <;> simp [finalUrls, hu]

theorem mem_finalUrls_of_get {l : List (Option String)} {i : ℕ} {u : String}
    (h : l[i]? = some (some u)) (hu : u ≠ "") : u ∈ finalUrls l := by
  have hmem : some u ∈ l := List.getElem?_mem h
  exact List.mem_filterMap.mpr ⟨some u, hmem, by simp [hu]⟩

/-- C3 counterexample: a single scene holds a clip that fails export-time
verification, and the recovery resolve returns nothing, so zero scenes hold a
clip that passed verification or was recovered; the claim then demands that
export be refused with no assembly call, but handleExport keeps the broken
clip reference, counts it at the gate, and proceeds to assembly with it,
without any confirmation prompt. -/
theorem export_gate_counterexample :
    claimValidCount [some brokenUrl] (fun _ => false) (fun _ => none) = 0 ∧
      handleExport [some brokenUrl] (fun _ => false) (fun _ => none) false =
        (ExportResult.merged [brokenUrl], false) := by
  constructor <;> rfl

/-- C3 (amended): the export gate is a trichotomy on the number of scenes
whose clip reference is present after the re-verification and recovery pass —
a scene whose clip fails verification and whose recovery returns nothing
retains its broken reference and is counted as valid by the gate: zero
present clips refuse export with no assembly call; some-but-not-all present
clips assemble only upon explicit confirmation, and a declined confirmation
makes no assembly call; all clips present assemble without any prompt. -/
theorem export_gate_trichotomy_amended :
    ∀ (scenes : List (Option String)) (verify : String → Bool)
      (recover : ℕ → Option String) (c : Bool),
      ((finalUrls (recoverPass verify recover scenes).1).length = 0 →
        handleExport scenes verify recover c = (ExportResult.refused, false)) ∧
      (0 < (finalUrls (recoverPass verify recover scenes).1).length →
       (finalUrls (recoverPass verify recover scenes).1).length < scenes.length →
        handleExport scenes verify recover c =
          (if c then
            (ExportResult.merged (finalUrls (recoverPass verify recover scenes).1),
              true)
           else (ExportResult.declined, true))) ∧
      ((finalUrls (recoverPass verify recover scenes).1).length = scenes.length →
       0 < scenes.length →
        handleExport scenes verify recover c =
          (ExportResult.merged (finalUrls (recoverPass verify recover scenes).1),
            false)) := by
  intro scenes verify recover c
  have hlen : ((recoverPass verify recover scenes).1).length = scenes.length :=
    recoverPassAux_len verify recover scenes 0
  refine ⟨?_, ?_, ?_⟩
  · intro h0
    simp only [handleExport, exportGate, if_pos h0]
  · intro h1 h2
    have hne : ¬ ((finalUrls (recoverPass verify recover scenes).1).length = 0) := by
      omega
    have hlt : (finalUrls (recoverPass verify recover scenes).1).length <
        ((recoverPass verify recover scenes).1).length := by omega
    simp only [handleExport, exportGate, if_neg hne, if_pos hlt]
  · intro h1 h2
    have hne : ¬ ((finalUrls (recoverPass verify recover scenes).1).length = 0) := by
      omega
    have hnl : ¬ ((finalUrls (recoverPass verify recover scenes).1).length <
        ((recoverPass verify recover scenes).1).length) := by omega
    simp only [handleExport, exportGate, if_neg hne, if_neg hnl]

/-- C3 witness: a project with one broken and one missing clip under a
verifier that accepts the broken clip yields a partial count and a declined
confirmation makes no assembly call, while a fully-present project assembles
with no prompt. -/
theorem export_gate_witness :
    handleExport [some brokenUrl, none] (fun _ => true) (fun _ => none) false =
        (ExportResult.declined, true) ∧
      handleExport [some brokenUrl] (fun _ => true) (fun _ => none) false =
        (ExportResult.merged [brokenUrl], false) := by
  constructor
  · have h := (export_gate_trichotomy_amended [some brokenUrl, none] (fun _ => true)
      (fun _ => none) false).2.1 (by decide) (by decide)
    exact h
  · have h := (export_gate_trichotomy_amended [some brokenUrl] (fun _ => true)
      (fun _ => none) false).2.2 (by decide) (by decide)
    exact h

/-- C10: during the export pass the verification calls are exactly the
originally-present truthy clip URLs — a recovered URL is never passed through
verification — and a scene whose stored clip fails verification receives the
recovered URL as its clip, which is then counted by the gate and included in
the assembly input. -/
theorem recovery_unverified_accepted :
    (∀ (scenes : List (Option String)) (verify : String → Bool)
        (recover : ℕ → Option String),
        (recoverPass verify recover scenes).2 = finalUrls scenes) ∧
    (∀ (scenes : List (Option String)) (verify : String → Bool)
        (recover : ℕ → Option String) (i : ℕ) (u0 u : String),
        scenes[i]? = some (some u0) → u0 ≠ "" → verify u0 = false →
        recover i = some u → u ≠ "" →
        ((recoverPass verify recover scenes).1)[i]? = some (some u) ∧
          u ∈ finalUrls (recoverPass verify recover scenes).1) := by
  constructor
  · intro scenes verify recover
    exact recoverPassAux_trace verify recover scenes 0
  · intro scenes verify recover i u0 u hs hu0 hv hr hu
    have hget := recoverPassAux_get verify recover scenes 0 i
    rw [hs] at hget
    simp only [Option.map_some', Nat.zero_add] at hget
    have hscene : (recoverScene verify (recover i) (some u0)).1 = some u := by
      rw [hr]
      simp [recoverScene, hu0, hv, hu]
    rw [hscene] at hget
    exact ⟨hget, mem_finalUrls_of_get hget hu⟩

/-- C10 witness: a concrete broken scene recovered with a fresh URL stores and
counts that URL without verifying it. -/
theorem recovery_unverified_witness :
    ((recoverPass (fun _ => false) (fun _ => some "https://new.example.com/clip.mp4")
        [some brokenUrl]).1)[0]? = some (some "https://new.example.com/clip.mp4") ∧
      "https://new.example.com/clip.mp4" ∈ finalUrls
        (recoverPass (fun _ => false)
          (fun _ => some "https://new.example.com/clip.mp4") [some brokenUrl]).1 :=
  recovery_unverified_accepted.2 [some brokenUrl] (fun _ => false)
    (fun _ => some "https://new.example.com/clip.mp4") 0 brokenUrl _ rfl (by decide)
    rfl rfl (by decide)

/-! ### C4, C7, C8: assembly -/

theorem sceneStep_ok_iff (env : MergeEnvV1) (i : ℕ) :
    (∃ d, sceneStep env i = Except.ok d) ↔
      (env.dlVideo i = true ∧ env.dlAudio i = true ∧ (env.probe i).isSome = true ∧
        env.encode i = true) := by
  cases h1 : env.dlVideo i <;> cases h2 : env.dlAudio i <;>
    cases h4 : env.encode i <;> cases hp : env.probe i <;>
      simp [sceneStep, h1, h2, h4, hp]

theorem runScenes_ok_iff (env : MergeEnvV1) :
    ∀ n, (∃ ds, runScenes env n = Except.ok ds) ↔
      ∀ i, i < n → ∃ d, sceneStep env i = Except.ok d := by
  intro n
  induction n with
  | zero => simp [runScenes]
  | succ n ih =>
    constructor
    · intro hex i hi
      obtain ⟨ds, hds⟩ := hex
      rw [runScenes] at hds
      split at hds
      · rename_i ds0 hr0
        split at hds
        · rename_i d hd
          rcases Nat.lt_succ_iff_lt_or_eq.mp hi with hlt | heq
          · exact (ih.mp ⟨ds0, hr0⟩) i hlt
          · subst heq; exact ⟨d, hd⟩
        · cases hds
      · cases hds
    · intro hall
      obtain ⟨ds0, hr0⟩ := ih.mpr (fun i hi => hall i (by omega))
      obtain ⟨d, hd⟩ := hall n (by omega)
      exact ⟨ds0 ++ [d], by simp only [runScenes, hr0, hd]⟩

theorem runScenes_eq_map (env : MergeEnvV1) (f : ℕ → ℚ) :
    ∀ n, (∀ i, i < n → sceneStep env i = Except.ok (f i)) →
      runScenes env n = Except.ok ((List.range n).map f) := by
  intro n
  induction n with
  | zero => intro _; rfl
  | succ n ih =>
    intro h
    have h1 := ih (fun i hi => h i (by omega))
    have h2 := h n (by omega)
    rw [runScenes]
    simp only [h1, h2]
    simp [List.range_succ]

theorem mergeJobV1_ok_iff (env : MergeEnvV1) (n : ℕ) :
    (∃ out, mergeJobV1 env n = Except.ok out) ↔
      ((∀ i, i < n → env.dlVideo i = true ∧ env.dlAudio i = true ∧
          (env.probe i).isSome = true ∧ env.encode i = true) ∧
        env.concat = true) := by
  constructor
  · intro hex
    obtain ⟨out, hout⟩ := hex
    rw [mergeJobV1] at hout
    split at hout
    · rename_i ds hds
      split at hout
      · rename_i hc
        exact ⟨fun i hi => (sceneStep_ok_iff env i).mp
          (((runScenes_ok_iff env n).mp ⟨ds, hds⟩) i hi), hc⟩
      · cases hout
    · cases hout
  · intro hyp
    obtain ⟨hall, hc⟩ := hyp
    obtain ⟨ds, hds⟩ := (runScenes_ok_iff env n).mpr
      (fun i hi => (sceneStep_ok_iff env i).mpr (hall i hi))
    exact ⟨(1, (ds.map (fun d => encodedSceneDuration d d)).sum),
      by simp only [mergeJobV1, hds, if_pos hc]⟩

theorem mergeJobV2_ok_iff (env : MergeEnvV2) (n : ℕ) :
    (∃ out, mergeJobV2 env n = Except.ok out) ↔
      (0 < ((List.range n).filter (fun i => v2downloaded env i)).length ∧
        (∀ i ∈ (List.range n).filter (fun i => v2downloaded env i),
          env.normalizeOk i = true) ∧ env.concatOk = true) := by
  constructor
  · intro hex
    obtain ⟨out, hout⟩ := hex
    simp only [mergeJobV2] at hout
    split at hout
    · cases hout
    · rename_i h0
      split at hout
      · rename_i hall
        split at hout
        · rename_i hc
          exact ⟨by omega, List.all_eq_true.mp hall, hc⟩
        · cases hout
      · cases hout
  · intro hyp
    obtain ⟨h0, hall, hc⟩ := hyp
    simp only [mergeJobV2]
    rw [if_neg (by omega), if_pos (List.all_eq_true.mpr hall), if_pos hc]
    exact ⟨_, rfl⟩

/-- C4 counterexample: in the second server variant, with clip 0 failing all
3 download attempts and clip 1 downloading, the merge job still succeeds and
publishes an artifact containing 1 of the 2 clips — a scene download failure
does not fail the whole job, refuting the claim as stated. -/
theorem assembly_skipped_download_counterexample :
    v2downloaded envV2CE 0 = false ∧ mergeJobV2 envV2CE 2 = Except.ok (1, 1) := by
  constructor <;> rfl

/-- C4 (amended): the first-variant pairs-based merge is all-or-nothing — it
publishes a success payload iff every scene download, probe and encode step
and the final concatenation succeed, and any single failure yields an error
with no artifact; the second-variant clips-only merge instead skips clips
whose downloads fail and succeeds iff at least one clip downloads, every
downloaded clip normalizes, and the concatenation succeeds. -/
theorem assembly_all_or_nothing_amended :
    (∀ (env : MergeEnvV1) (n : ℕ),
        (∃ out, mergeJobV1 env n = Except.ok out) ↔
          ((∀ i, i < n → env.dlVideo i = true ∧ env.dlAudio i = true ∧
              (env.probe i).isSome = true ∧ env.encode i = true) ∧
            env.concat = true)) ∧
    (∀ (env : MergeEnvV2) (n : ℕ),
        (∃ out, mergeJobV2 env n = Except.ok out) ↔
          (0 < ((List.range n).filter (fun i => v2downloaded env i)).length ∧
            (∀ i ∈ (List.range n).filter (fun i => v2downloaded env i),
              env.normalizeOk i = true) ∧ env.concatOk = true)) :=
  ⟨mergeJobV1_ok_iff, mergeJobV2_ok_iff⟩

/-- C4 witness: the all-succeeding first-variant environment publishes, and an
environment whose first video download fails publishes nothing. -/
theorem assembly_all_or_nothing_witness :
    (∃ out, mergeJobV1 envV1W 2 = Except.ok out) ∧
      ¬ (∃ out, mergeJobV1
          (⟨fun _ => false, fun _ => true, fun _ => some 1, fun _ => true,
            true⟩ : MergeEnvV1) 1 = Except.ok out) :=
  ⟨(assembly_all_or_nothing_amended.1 envV1W 2).mpr
      ⟨fun i hi => ⟨rfl, rfl, rfl, rfl⟩, rfl⟩,
   fun hex => by
     have h := (assembly_all_or_nothing_amended.1 _ 1).mp hex
     have hdl := (h.1 0 (by omega)).1
     simp at hdl⟩

/-- C7: when every scene step succeeds and concatenation succeeds, the merge
job publishes exactly one artifact regardless of the scene count, and its
duration is exactly the sum of the probed narration durations — each scene
segment is capped by -t at its narration duration, with audio the timing
authority. -/
theorem assembly_duration_sum :
    ∀ (env : MergeEnvV1) (n : ℕ) (f : ℕ → ℚ),
      (∀ i, i < n → env.dlVideo i = true ∧ env.dlAudio i = true ∧
        env.probe i = some (f i) ∧ env.encode i = true) →
      env.concat = true →
      mergeJobV1 env n = Except.ok (1, ((List.range n).map f).sum) := by
  intro env n f h hc
  have hstep : ∀ i, i < n → sceneStep env i = Except.ok (f i) := by
    intro i hi
    obtain ⟨h1, h2, h3, h4⟩ := h i hi
    simp [sceneStep, h1, h2, h3, h4]
  have hrun := runScenes_eq_map env f n hstep
  simp only [mergeJobV1, hrun, if_pos hc]
  have hmap : ∀ l : List ℚ, l.map (fun d => encodedSceneDuration d d) = l := by
    intro l
    have hfun : (fun d : ℚ => encodedSceneDuration d d) = id := by
      funext d
      simp [encodedSceneDuration]
    rw [hfun, List.map_id]
  rw [hmap]

/-- C7 witness: a 3-scene job with narration durations 2, 3 and 4 produces one
artifact of duration 9. -/
theorem assembly_duration_witness :
    mergeJobV1 envV1W 3 =
      Except.ok (1, ((List.range 3).map (fun i => ((i : ℚ) + 2))).sum) :=
  assembly_duration_sum envV1W 3 (fun i => (i : ℚ) + 2)
    (fun i hi => ⟨rfl, rfl, rfl, rfl⟩) rfl

/-- C8: the merge endpoint starts work iff both arrays are present, of equal
length and non-empty; any rejected request is answered with a client-input
error whose message is independent of every external outcome, so no
workspace, download or encoding work is consulted. -/
theorem assemble_input_gate :
    ∀ (v a : Option (List String)),
      ((mergeEndpointStartsWork v a = true) ↔
        (∃ vs auds, v = some vs ∧ a = some auds ∧ vs.length = auds.length ∧
          0 < vs.length)) ∧
      (mergeEndpointStartsWork v a = false →
        ∃ msg, ∀ env : MergeEnvV1, mergeEndpointV1 v a env = Except.error msg) := by
  intro v a
  constructor
  · constructor
    · intro h
      cases v with
      | none => simp [mergeEndpointStartsWork, mergeInputGate] at h
      | some vs =>
        cases a with
        | none =>
          by_cases h0 : vs.length = 0 <;>
            simp [mergeEndpointStartsWork, mergeInputGate, h0] at h
        | some auds =>
          by_cases h0 : vs.length = 0
          · simp [mergeEndpointStartsWork, mergeInputGate, h0] at h
          · by_cases hm : auds.length ≠ vs.length
            · simp [mergeEndpointStartsWork, mergeInputGate, h0, hm] at h
            · push_neg at hm
              exact ⟨vs, auds, rfl, rfl, hm.symm, by omega⟩
    · intro hyp
      obtain ⟨vs, auds, hv, ha, hlen, hpos⟩ := hyp
      subst hv
      subst ha
      have h0 : ¬ (vs.length = 0) := by omega
      have hm : ¬ (auds.length ≠ vs.length) := fun hne => hne hlen.symm
      simp only [mergeEndpointStartsWork, mergeInputGate, if_neg h0, if_neg hm]
  · intro h
    cases hg : mergeInputGate v a with
    | accepted vs auds =>
      simp only [mergeEndpointStartsWork, hg] at h
      cases h
    | rejectVideos =>
      exact ⟨"videoUrls array required",
        fun env => by simp only [mergeEndpointV1, hg]⟩
    | rejectAudios =>
      exact ⟨"Matching audioUrls array required",
        fun env => by simp only [mergeEndpointV1, hg]⟩

/-- C8 witness: a matched singleton request starts work, and a request with an
empty audio array is rejected with an error independent of the environment. -/
theorem assemble_input_gate_witness :
    mergeEndpointStartsWork (some ["https://c.example.com/a.mp4"])
        (some ["data:audio/wav;base64,AAAA"]) = true ∧
      ∃ msg, ∀ env : MergeEnvV1,
        mergeEndpointV1 (some ["https://c.example.com/a.mp4"]) (some []) env =
          Except.error msg :=
  ⟨(assemble_input_gate _ _).1.mpr
      ⟨["https://c.example.com/a.mp4"], ["data:audio/wav;base64,AAAA"], rfl, rfl,
        rfl, by decide⟩,
   (assemble_input_gate _ _).2 rfl⟩

end ShortsCraft
